import Mathlib

/-!
Verification of the PDF-chat RAG backend (two source files: `pinecone.js`
and the Express server file).  JS strings are embedded as `List Char`,
JS numbers used as indices as `Int` (the chunker's loop variable can go
negative in JS), and fallible/remote operations as `Except`/oracles.
-/

/-- Clamp of one bound of `String.prototype.slice`: a negative index counts
from the end (floored at 0), a non-negative one is capped at the length. -/
def jsSliceBound (len : Nat) (n : Int) : Nat :=
  if n < 0 then (n + len).toNat else min n.toNat len

/-- JS `text.slice(a, b)`: the characters from the clamped `a` (inclusive)
to the clamped `b` (exclusive), empty when the bounds cross. -/
def jsSlice (s : List Char) (a b : Int) : List Char :=
  (s.take (jsSliceBound s.length b)).drop (jsSliceBound s.length a)

/-- The loop of `chunkText` (pinecone.js lines 47-53):
`for (let i = 0; i < text.length; i += chunkSize - overlap)
   chunks.push(text.slice(i, i + chunkSize));`
embedded with explicit fuel, since for `chunkSize - overlap <= 0` the JS
loop does not terminate; `none` means the fuel ran out before the loop
finished. -/
def chunkTextLoop (text : List Char) (chunkSize overlap : Int) :
    Nat → Int → Option (List (List Char))
  | 0, _ => none
  | fuel + 1, i =>
    if i < (text.length : Int) then
      match chunkTextLoop text chunkSize overlap fuel (i + (chunkSize - overlap)) with
      | none => none
      | some rest => some (jsSlice text i (i + chunkSize) :: rest)
    else
      some []

/-- `chunkText(text, chunkSize, overlap)` (pinecone.js lines 47-53), run with
fuel `text.length + 1`, which is proved sufficient whenever
`overlap < chunkSize` (`chunkTextLoop_isSome_of_fuel`). -/
def chunkText (text : List Char) (chunkSize overlap : Int) : List (List Char) :=
  (chunkTextLoop text chunkSize overlap (text.length + 1) 0).getD []

/-- `chunkText` with its default arguments `chunkSize = 500`, `overlap = 50`
(the only way `processPdfAndStoreInPinecone` calls it). -/
def chunkTextDefault (text : List Char) : List (List Char) :=
  chunkText text 500 50

/-- Rejoining a chunk list: the first chunk, then every later chunk with its
first `overlap` characters removed. -/
def rejoin (overlap : Nat) : List (List Char) → List Char
  | [] => []
  | c :: cs => c ++ (cs.map (List.drop overlap)).flatten

theorem take_min_length (l : List Char) (n : Nat) : l.take (min n l.length) = l.take n := by
  rcases le_total n l.length with h | h
  · rw [min_eq_left h]
  · rw [min_eq_right h, List.take_length, List.take_of_length_le h]

theorem drop_take_append (l : List Char) (A B : Nat) (hAB : A ≤ B) :
    (l.take B).drop A ++ l.drop B = l.drop A := by
  conv_rhs => rw [← List.take_append_drop B l]
  rw [List.drop_append_eq_append_drop]
  by_cases h : A ≤ (l.take B).length
  · have h0 : A - (l.take B).length = 0 := by omega
    rw [h0, List.drop_zero]
  · have hlen : l.length ≤ B := by
      have := List.length_take B l
      omega
    have h1 : l.drop B = [] := List.drop_eq_nil_of_le hlen
    simp [h1]

theorem chunkTextLoop_eq_none_of_nonpos (text : List Char) (chunkSize overlap : Int)
    (hstep : chunkSize - overlap ≤ 0) :
    ∀ fuel : Nat, ∀ i : Int, i < (text.length : Int) →
      chunkTextLoop text chunkSize overlap fuel i = none := by
  intro fuel
  induction fuel with
  | zero => intro i _; rfl
  | succ n ih =>
    intro i hi
    have hrec : chunkTextLoop text chunkSize overlap n (i + (chunkSize - overlap)) = none :=
      ih _ (by omega)
    simp [chunkTextLoop, hi, hrec]

theorem chunkTextLoop_isSome_of_fuel (text : List Char) (chunkSize overlap : Int)
    (hstep : 0 < chunkSize - overlap) :
    ∀ fuel : Nat, ∀ i : Int, 1 ≤ fuel →
      (i < (text.length : Int) → (text.length : Int) - i < (fuel : Int)) →
      (chunkTextLoop text chunkSize overlap fuel i).isSome := by
  intro fuel
  induction fuel with
  | zero => intro i h1 _; omega
  | succ n ih =>
    intro i _ hbound
    by_cases hi : i < (text.length : Int)
    · have h1 : 1 ≤ n := by
        have := hbound hi
        omega
      have h2 : (i + (chunkSize - overlap)) < (text.length : Int) →
          (text.length : Int) - (i + (chunkSize - overlap)) < (n : Int) := by
        intro _
        have := hbound hi
        omega
      have := ih (i + (chunkSize - overlap)) h1 h2
      rcases hsome : chunkTextLoop text chunkSize overlap n (i + (chunkSize - overlap)) with
        _ | rest
      · rw [hsome] at this; simp at this
      · simp [chunkTextLoop, hi, hsome]
    · simp [chunkTextLoop, hi]

theorem jsSlice_prefix_append_drop (text : List Char) (c : Int) (hc : 0 ≤ c) :
    jsSlice text 0 c ++ text.drop c.toNat = text := by
  have h0 : jsSliceBound text.length 0 = 0 := by simp [jsSliceBound]
  have hb : jsSliceBound text.length c = min c.toNat text.length := by
    rw [jsSliceBound, if_neg (by omega)]
  rw [jsSlice, h0, hb, List.drop_zero, take_min_length, List.take_append_drop]

theorem chunkTextLoop_flatten (text : List Char) (chunkSize overlap : Int)
    (hov : 0 ≤ overlap) (hlt : overlap < chunkSize) :
    ∀ fuel : Nat, ∀ i : Int, 0 ≤ i → ∀ cs,
      chunkTextLoop text chunkSize overlap fuel i = some cs →
      (cs.map (List.drop overlap.toNat)).flatten = text.drop (i + overlap).toNat := by
  intro fuel
  induction fuel with
  | zero => intro i _ cs h; simp [chunkTextLoop] at h
  | succ n ih =>
    intro i hi cs h
    by_cases hil : i < (text.length : Int)
    · rcases hrec : chunkTextLoop text chunkSize overlap n (i + (chunkSize - overlap)) with
        _ | rest
      · simp [chunkTextLoop, hil, hrec] at h
      · simp only [chunkTextLoop, if_pos hil, hrec] at h
        have hcs : cs = jsSlice text i (i + chunkSize) :: rest := by
          exact (Option.some_inj.mp h).symm
        subst hcs
        have hflat := ih (i + (chunkSize - overlap)) (by omega) rest hrec
        have hidx : (i + (chunkSize - overlap) + overlap).toNat = (i + chunkSize).toNat := by
          omega
        rw [hidx] at hflat
        simp only [List.map_cons, List.flatten_cons, hflat]
        -- the dropped chunk: jsSlice text i (i + chunkSize), with 0 ≤ i < len
        have hba : jsSliceBound text.length i = i.toNat := by
          rw [jsSliceBound, if_neg (by omega)]
          omega
        have hbb : jsSliceBound text.length (i + chunkSize) =
            min (i + chunkSize).toNat text.length := by
          rw [jsSliceBound, if_neg (by omega)]
        rw [jsSlice, hba, hbb, List.drop_drop, take_min_length]
        have hAeq : i.toNat + overlap.toNat = (i + overlap).toNat := by omega
        rw [hAeq]
        exact drop_take_append text ((i + overlap).toNat) ((i + chunkSize).toNat) (by omega)
    · have hcs : cs = [] := by
        simp [chunkTextLoop, hil] at h
        exact h
      subst hcs
      simp only [List.map_nil, List.flatten_nil]
      exact (List.drop_eq_nil_of_le (by omega)).symm

theorem chunkTextLoop_length (text : List Char) (chunkSize overlap : Int)
    (hstep : 0 < chunkSize - overlap) :
    ∀ fuel : Nat, ∀ i : Int, 0 ≤ i → ∀ cs,
      chunkTextLoop text chunkSize overlap fuel i = some cs →
      cs.length = (((text.length : Int) - i).toNat + (chunkSize - overlap).toNat - 1)
                    / (chunkSize - overlap).toNat := by
  intro fuel
  induction fuel with
  | zero => intro i _ cs h; simp [chunkTextLoop] at h
  | succ n ih =>
    intro i hi cs h
    by_cases hil : i < (text.length : Int)
    · rcases hrec : chunkTextLoop text chunkSize overlap n (i + (chunkSize - overlap)) with
        _ | rest
      · simp [chunkTextLoop, hil, hrec] at h
      · simp only [chunkTextLoop, if_pos hil, hrec] at h
        have hcs : cs = jsSlice text i (i + chunkSize) :: rest := by
          exact (Option.some_inj.mp h).symm
        subst hcs
        have hlen := ih (i + (chunkSize - overlap)) (by omega) rest hrec
        simp only [List.length_cons, hlen]
        have hs1 : 1 ≤ (chunkSize - overlap).toNat := by omega
        have hd1 : 1 ≤ ((text.length : Int) - i).toNat := by omega
        rcases Nat.lt_or_ge (((text.length : Int) - i).toNat) ((chunkSize - overlap).toNat)
          with hcase | hcase
        · have hz : ((text.length : Int) - (i + (chunkSize - overlap))).toNat = 0 := by omega
          rw [hz]
          have hlhs : (0 + (chunkSize - overlap).toNat - 1) / (chunkSize - overlap).toNat
              = 0 := Nat.div_eq_of_lt (by omega)
          have hrhs : (((text.length : Int) - i).toNat + (chunkSize - overlap).toNat - 1)
              / (chunkSize - overlap).toNat = 1 := by
            have harg : ((text.length : Int) - i).toNat + (chunkSize - overlap).toNat - 1
                = (((text.length : Int) - i).toNat - 1) + (chunkSize - overlap).toNat := by
              omega
            rw [harg, Nat.add_div_right _ (by omega), Nat.div_eq_of_lt (by omega)]
          rw [hlhs, hrhs]
        · have hd' : ((text.length : Int) - (i + (chunkSize - overlap))).toNat
              = ((text.length : Int) - i).toNat - (chunkSize - overlap).toNat := by omega
          rw [hd']
          have harg1 : ((text.length : Int) - i).toNat - (chunkSize - overlap).toNat
                + (chunkSize - overlap).toNat - 1
              = ((text.length : Int) - i).toNat - 1 := by omega
          have harg2 : ((text.length : Int) - i).toNat + (chunkSize - overlap).toNat - 1
              = (((text.length : Int) - i).toNat - 1) + (chunkSize - overlap).toNat := by
            omega
          rw [harg1, harg2, Nat.add_div_right _ (by omega)]
    · have hcs : cs = [] := by
        simp [chunkTextLoop, hil] at h
        exact h
      subst hcs
      have hz : ((text.length : Int) - i).toNat = 0 := by omega
      rw [hz]
      simp only [List.length_nil]
      exact (Nat.div_eq_of_lt (by omega)).symm

/-- C1: for every text and every configuration with `0 ≤ overlap < chunkSize`,
`chunkText` returns a finite chunk sequence such that concatenating the first
chunk with each subsequent chunk after dropping its first `overlap` characters
reconstructs the text exactly. -/
theorem chunkText_rejoin (text : List Char) (chunkSize overlap : Int)
    (hov : 0 ≤ overlap) (hlt : overlap < chunkSize) :
    rejoin overlap.toNat (chunkText text chunkSize overlap) = text := by
  by_cases hlen : text.length = 0
  · have htext : text = [] := List.length_eq_zero.mp hlen
    subst htext
    rfl
  · have hsome := chunkTextLoop_isSome_of_fuel text chunkSize overlap (by omega)
      (text.length + 1) 0 (by omega) (by intro _; omega)
    obtain ⟨cs, hcs⟩ := Option.isSome_iff_exists.mp hsome
    have hchunk : chunkText text chunkSize overlap = cs := by
      rw [chunkText, hcs]
      rfl
    have hil : (0 : Int) < (text.length : Int) := by omega
    rcases hrec : chunkTextLoop text chunkSize overlap text.length (chunkSize - overlap)
      with _ | rest
    · simp [chunkTextLoop, hil, hrec] at hcs
    · simp only [chunkTextLoop, if_pos hil, zero_add, hrec] at hcs
      have hcs2 : cs = jsSlice text 0 chunkSize :: rest := by
        exact (Option.some_inj.mp hcs).symm
      rw [hchunk, hcs2, rejoin]
      have hflat := chunkTextLoop_flatten text chunkSize overlap hov hlt
        text.length (chunkSize - overlap) (by omega) rest hrec
      have hidx : (chunkSize - overlap + overlap).toNat = chunkSize.toNat := by omega
      rw [hidx] at hflat
      rw [hflat]
      exact jsSlice_prefix_append_drop text chunkSize (by omega)

theorem chunkText_rejoin_witness :
    (0 : Int) ≤ 1 ∧ (1 : Int) < 4 ∧
      rejoin (Int.toNat 1) (chunkText ("ABCDEFGHIJ".toList) 4 1) = "ABCDEFGHIJ".toList :=
  ⟨by decide, by decide, chunkText_rejoin ("ABCDEFGHIJ".toList) 4 1 (by decide) (by decide)⟩

/-- C2 counterexample: chunking `"ABCDEFGHIJ"` with `chunkSize = 4` and
`overlap = 1` yields the FOUR chunks `["ABCD","DEFG","GHIJ","J"]` — not the
three chunks `["ABCD","DEFG","GHIJ"]` the claim states, and the chunk count 4
differs from the claimed `ceil((len - overlap) / (size - overlap)) = 3`. -/
theorem chunkText_count_counterexample :
    chunkText ("ABCDEFGHIJ".toList) 4 1 =
        ["ABCD".toList, "DEFG".toList, "GHIJ".toList, "J".toList] ∧
      chunkText ("ABCDEFGHIJ".toList) 4 1 ≠
        ["ABCD".toList, "DEFG".toList, "GHIJ".toList] ∧
      (chunkText ("ABCDEFGHIJ".toList) 4 1).length = 4 ∧
      ("ABCDEFGHIJ".toList.length - 1 + (4 - 1) - 1) / (4 - 1) = 3 := by
  refine ⟨by decide, by decide, by decide, by decide⟩

/-- C2 (amended): for every configuration with `overlap < chunkSize`, the
number of chunks is `ceil(len(text) / (chunkSize - overlap))`, i.e.
`(len + step - 1) / step` for `step = chunkSize - overlap`; on
`"ABCDEFGHIJ"` with `chunkSize = 4`, `overlap = 1` this is 4, the chunks
being `["ABCD","DEFG","GHIJ","J"]`. -/
theorem chunkText_length (text : List Char) (chunkSize overlap : Int)
    (hlt : overlap < chunkSize) :
    (chunkText text chunkSize overlap).length =
      (text.length + (chunkSize - overlap).toNat - 1) / (chunkSize - overlap).toNat := by
  have hsome := chunkTextLoop_isSome_of_fuel text chunkSize overlap (by omega)
    (text.length + 1) 0 (by omega) (by intro _; omega)
  obtain ⟨cs, hcs⟩ := Option.isSome_iff_exists.mp hsome
  have hlen := chunkTextLoop_length text chunkSize overlap (by omega)
    (text.length + 1) 0 (by omega) cs hcs
  have hsub : (((text.length : Int) - 0).toNat) = text.length := by omega
  rw [hsub] at hlen
  rw [chunkText, hcs]
  exact hlen

theorem chunkText_length_witness :
    (1 : Int) < 4 ∧
      (chunkText ("ABCDEFGHIJ".toList) 4 1).length =
        ("ABCDEFGHIJ".toList.length + ((4 : Int) - 1).toNat - 1) / ((4 : Int) - 1).toNat :=
  ⟨by decide, chunkText_length ("ABCDEFGHIJ".toList) 4 1 (by decide)⟩

/-- C3: with `overlap ≥ chunkSize` (here `text = "A"`, `chunkSize = 4`,
`overlap = 4`) the loop of `chunkText` never advances, so no amount of fuel
completes it: the JS code loops forever and never raises a
`ConfigurationError` (no such error exists anywhere in the code). -/
theorem chunkText_overlap_ge_size_diverges :
    ∀ fuel : Nat, chunkTextLoop ("A".toList) 4 4 fuel 0 = none := by
  intro fuel
  exact chunkTextLoop_eq_none_of_nonpos ("A".toList) 4 4 (by decide) fuel 0 (by decide)

/-- C10: whenever `chunkSize > overlap ≥ 0` the chunker terminates: fuel
`text.length + 1` already suffices, and `chunkText` returns that finite
list of chunks. -/
theorem chunkText_terminates (text : List Char) (chunkSize overlap : Int)
    (hov : 0 ≤ overlap) (hlt : overlap < chunkSize) :
    chunkTextLoop text chunkSize overlap (text.length + 1) 0 =
      some (chunkText text chunkSize overlap) := by
  have hsome := chunkTextLoop_isSome_of_fuel text chunkSize overlap (by omega)
    (text.length + 1) 0 (by omega) (by intro _; omega)
  obtain ⟨cs, hcs⟩ := Option.isSome_iff_exists.mp hsome
  rw [hcs, chunkText, hcs]
  rfl

theorem chunkText_terminates_witness :
    (0 : Int) ≤ 50 ∧ (50 : Int) < 500 ∧
      chunkTextLoop ("hello".toList) 500 50 ("hello".toList.length + 1) 0 =
        some (chunkText ("hello".toList) 500 50) :=
  ⟨by decide, by decide, chunkText_terminates ("hello".toList) 500 50 (by decide) (by decide)⟩

/-- A JS exception / rejected promise, carrying its `message`. -/
structure JsErr where
  message : List Char
deriving DecidableEq

/-- A multer-saved upload: its saved `path` and `originalname`. -/
structure UploadedFile where
  path : List Char
  originalname : List Char
deriving DecidableEq

/-- One page produced by `PDFLoader.load()` (`splitPages: true`). -/
structure PdfPage where
  pageContent : List Char
deriving DecidableEq

/-- One chunk document, out of the splitter or out of a similarity search. -/
structure RetrievedDoc where
  pageContent : List Char
  metadataSource : Option (List Char)
deriving DecidableEq

/-- Observable remote/file-system actions of the upload handler. -/
inductive UploadEffect where
  | loadPdf (path : List Char)
  | splitDocs
  | addBatch (start : Nat)
  | unlink (path : List Char)
deriving DecidableEq

/-- How the upload request ends: a 200 JSON body
`{message, namespace, chunkCount, originalPageCount}`, a 400, a 500 JSON body
`{error, details}` (`stack` appears only with NODE_ENV=development and is
not modelled), or an exception escaping the handler (no response sent by
it). -/
inductive UploadResponse where
  | success (ns : List Char) (chunkCount originalPageCount : Nat)
  | badRequest (error : List Char)
  | failure (error details : List Char)
  | unhandled (e : JsErr)
deriving DecidableEq

/-- Outcomes of the awaited external operations of one upload invocation, in
program order: `loader.load()`, `textSplitter.splitDocuments(rawDocs)`,
`PineconeStore.fromExistingIndex(...)`, `vectorStore.addDocuments(batch)`
per batch-start index, the `fs.unlinkSync` in the try block and the
`fs.unlinkSync` in the catch block. -/
structure UploadOracles where
  load : Except JsErr (List PdfPage)
  split : Except JsErr (List RetrievedDoc)
  fromIndex : Except JsErr Unit
  addBatch : Nat → Except JsErr Unit
  unlinkTry : Except JsErr Unit
  unlinkCatch : Except JsErr Unit

/-- What one upload invocation leaves behind: the HTTP outcome, the ordered
effect trace, and the value written to `req.session.namespace` (line 84),
if that line was reached. -/
structure UploadResult where
  response : UploadResponse
  effects : List UploadEffect
  sessionNamespace : Option (List Char)
deriving DecidableEq

/-- The batching loop (server lines 93-98):
`for (let i = 0; i < docs.length; i += batchSize)` with `batchSize = 100`,
awaiting `addDocuments` per batch; a rejection aborts the loop (the error
goes to the catch block).  Fuel-indexed like `chunkTextLoop`; since the
step 100 is a positive constant, fuel `len + 1` always suffices
(`runAddBatches_fuel_irrelevant`).  Returns the batch-start indices reached,
plus the aborting error if any. -/
def runAddBatches (addBatch : Nat → Except JsErr Unit) (len : Nat) :
    Nat → Nat → List Nat × Option JsErr
  | 0, _ => ([], none)
  | fuel + 1, i =>
    if i < len then
      match addBatch i with
      | .error e => ([i], some e)
      | .ok _ =>
        let rest := runAddBatches addBatch len fuel (i + 100)
        (i :: rest.1, rest.2)
    else ([], none)

theorem runAddBatches_fuel_irrelevant (addBatch : Nat → Except JsErr Unit) (len : Nat) :
    ∀ fuel : Nat, ∀ i : Nat, len - i < fuel →
      runAddBatches addBatch len fuel i = runAddBatches addBatch len (fuel + 1) i := by
  intro fuel
  induction fuel with
  | zero => intro i h; omega
  | succ n ih =>
    intro i h
    by_cases hi : i < len
    · have hrec := ih (i + 100) (by omega)
      rcases hab : addBatch i with e | u
      · simp [runAddBatches, hi, hab]
      · simp [runAddBatches, hi, hab, hrec]
    · simp [runAddBatches, hi]

/-- The catch block (server lines 130-138): logs, then runs
`if (req.file?.path) fs.unlinkSync(req.file.path)` with NO guard of its own —
if that `unlinkSync` throws, the exception escapes the handler and the
`res.status(500)` line is never reached; otherwise the 500 carries the
ORIGINAL error message in `details`. -/
def catchBlock (path : List Char) (e : JsErr) (unlinkCatch : Except JsErr Unit) :
    UploadResponse × List UploadEffect :=
  match unlinkCatch with
  | .error e2 => (.unhandled e2, [.unlink path])
  | .ok _ => (.failure ("Failed to process PDF".toList) e.message, [.unlink path])

/-- `POST /upload/pdf` (server lines 58-139).  `uuid` is the value returned
by `uuidv4()` at line 83 for this invocation.  Program order: reject when no
file; load the PDF; split; mint the namespace and store it in the session;
`fromExistingIndex`; `addDocuments` in batches of 100; `unlinkSync`; answer
200 with `{namespace, chunkCount, originalPageCount}`.  Any rejection jumps
to the catch block. -/
def uploadHandler (file : Option UploadedFile) (uuid : List Char) (o : UploadOracles) :
    UploadResult :=
  match file with
  | none => ⟨.badRequest ("No file uploaded".toList), [], none⟩
  | some f =>
    match o.load with
    | .error e =>
      let c := catchBlock f.path e o.unlinkCatch
      ⟨c.1, .loadPdf f.path :: c.2, none⟩
    | .ok rawDocs =>
      match o.split with
      | .error e =>
        let c := catchBlock f.path e o.unlinkCatch
        ⟨c.1, [.loadPdf f.path, .splitDocs] ++ c.2, none⟩
      | .ok docs =>
        match o.fromIndex with
        | .error e =>
          let c := catchBlock f.path e o.unlinkCatch
          ⟨c.1, [.loadPdf f.path, .splitDocs] ++ c.2, some uuid⟩
        | .ok _ =>
          let batches := runAddBatches o.addBatch docs.length (docs.length + 1) 0
          match batches.2 with
          | some e =>
            let c := catchBlock f.path e o.unlinkCatch
            ⟨c.1, [.loadPdf f.path, .splitDocs] ++ batches.1.map UploadEffect.addBatch ++ c.2,
             some uuid⟩
          | none =>
            match o.unlinkTry with
            | .error e =>
              let c := catchBlock f.path e o.unlinkCatch
              ⟨c.1, [.loadPdf f.path, .splitDocs] ++ batches.1.map UploadEffect.addBatch
                  ++ [.unlink f.path] ++ c.2, some uuid⟩
            | .ok _ =>
              ⟨.success uuid docs.length rawDocs.length,
               [.loadPdf f.path, .splitDocs] ++ batches.1.map UploadEffect.addBatch
                  ++ [.unlink f.path], some uuid⟩

/-- Lower-case hex digit, as used by `JSON.stringify` control-char escapes. -/
def hexDigit (n : Nat) : Char :=
  if n < 10 then Char.ofNat (48 + n) else Char.ofNat (87 + n)

/-- `JSON.stringify` escape of one character of a string. -/
def jsonEscapeChar (c : Char) : List Char :=
  if c = Char.ofNat 34 then [Char.ofNat 92, Char.ofNat 34]
  else if c = Char.ofNat 92 then [Char.ofNat 92, Char.ofNat 92]
  else if c = Char.ofNat 8 then [Char.ofNat 92, Char.ofNat 98]
  else if c = Char.ofNat 9 then [Char.ofNat 92, Char.ofNat 116]
  else if c = Char.ofNat 10 then [Char.ofNat 92, Char.ofNat 110]
  else if c = Char.ofNat 12 then [Char.ofNat 92, Char.ofNat 102]
  else if c = Char.ofNat 13 then [Char.ofNat 92, Char.ofNat 114]
  else if c.toNat < 32 then
    [Char.ofNat 92, Char.ofNat 117, Char.ofNat 48, Char.ofNat 48,
     hexDigit (c.toNat / 16), hexDigit (c.toNat % 16)]
  else [c]

/-- `JSON.stringify` of a JS string: quoted and escaped. -/
def jsonStringifyString (s : List Char) : List Char :=
  Char.ofNat 34 :: (s.map jsonEscapeChar).flatten ++ [Char.ofNat 34]

/-- The apostrophe character (appears twice inside the system prompt). -/
def apos : Char := Char.ofNat 39

/-- The SYSTEM_PROMPT template literal (server lines 167-176) around its one
interpolation `${JSON.stringify(context)}`. -/
def systemPromptHead : List Char :=
  ("\n    You are an AI assistant that answers questions based on the provided" ++
   " context from PDF documents.\n    - Always stay truthful to the context" ++
   "\n    - If you don").toList ++ [apos] ++ "t know, say you don".toList ++ [apos] ++
  ("t know\n    - Keep answers concise and accurate" ++
   "\n    - give all the details (can give in paragraph) \n    \n    Context:\n     ").toList

/-- `SYSTEM_PROMPT` assembled for a given retrieved `context` string. -/
def systemPrompt (context : List Char) : List Char :=
  systemPromptHead ++ jsonStringifyString context ++ "\n    ".toList

/-- `Array.prototype.join(sep)`. -/
def joinSep (sep : List Char) : List (List Char) → List Char
  | [] => []
  | [x] => x
  | x :: xs => x ++ sep ++ joinSep sep xs

/-- JS `v || dflt` for an optional string value (`undefined` and `""` are
falsy). -/
def jsOrString (v : Option (List Char)) (dflt : List Char) : List Char :=
  match v with
  | some s => if s.isEmpty then dflt else s
  | none => dflt

/-- One entry of the context string (server lines 162-164):
`[Context ${i+1}]: ${doc.pageContent}\nSource: ${doc.metadata.source || 'PDF'}`. -/
def contextEntry (i : Nat) (doc : RetrievedDoc) : List Char :=
  "[Context ".toList ++ (Nat.repr (i + 1)).toList ++ "]: ".toList ++ doc.pageContent
    ++ "\nSource: ".toList ++ jsOrString doc.metadataSource ("PDF".toList)

/-- The retrieved-context string: the entries joined with `'\n\n'`. -/
def contextOf (results : List RetrievedDoc) : List Char :=
  joinSep ("\n\n".toList) (results.enum.map (fun p => contextEntry p.1 p.2))

/-- The namespace hardcoded in the query handler (server line 146); the
session-based line below it is commented out in the source. -/
def hardcodedNamespace : List Char := "6763088c-17a1-433d-9f7f-066974723312".toList

/-- Observable remote actions of the query handler. -/
inductive QueryEffect where
  | search (ns : List Char) (question : List Char) (k : Nat)
  | complete (system user : List Char)
deriving DecidableEq

/-- How the query request ends: 200 `{answer, sources}` (answer is
`choices[0]?.message?.content`, possibly undefined), 400, or 500
(`details` there is development-only and not modelled). -/
inductive QueryResponse where
  | success (answer : Option (List Char)) (sources : List (List Char × Option (List Char)))
  | badRequest (error : List Char)
  | failure (error : List Char)
deriving DecidableEq

/-- Outcomes of the awaited external operations of one query:
`fromExistingIndex` + `similaritySearch(question, 5)` (either rejection
lands in the same catch block, so they are one oracle), and the Groq chat
completion, whose payload yields `choices[0]?.message?.content`. -/
structure QueryOracles where
  search : Except JsErr (List RetrievedDoc)
  complete : Except JsErr (Option (List Char))

/-- JS truthiness of the destructured `question` body field. -/
def questionTruthy : Option (List Char) → Bool
  | none => false
  | some s => !s.isEmpty

/-- `POST /query` (server lines 144-204): reject when `!question`; search the
HARDCODED namespace with k = 5; build the context string; assemble
SYSTEM_PROMPT; call the completion; answer `{answer, sources}`.  Any
rejection yields the 500 of the catch block (lines 197-203). -/
def queryHandler (question : Option (List Char)) (o : QueryOracles) :
    QueryResponse × List QueryEffect :=
  if questionTruthy question then
    let q := question.getD []
    match o.search with
    | .error _ =>
      (.failure ("Failed to process query".toList), [.search hardcodedNamespace q 5])
    | .ok results =>
      let sys := systemPrompt (contextOf results)
      match o.complete with
      | .error _ =>
        (.failure ("Failed to process query".toList),
         [.search hardcodedNamespace q 5, .complete sys q])
      | .ok answer =>
        (.success answer (results.map (fun d => (d.pageContent, d.metadataSource))),
         [.search hardcodedNamespace q 5, .complete sys q])
  else
    (.badRequest ("Question is required".toList), [])

/-- C6: a query whose body has no `question` and an upload with no attached
file are both rejected with a 400 client error and an EMPTY effect trace —
no PDF load, no split, no upsert batch, no similarity search and no
completion call happen before the rejection, whatever the remote oracles
would have answered. -/
theorem missing_inputs_rejected_before_remote_calls
    (uuid : List Char) (uo : UploadOracles) (qo : QueryOracles) :
    uploadHandler none uuid uo
        = ⟨.badRequest ("No file uploaded".toList), [], none⟩ ∧
      queryHandler none qo = (.badRequest ("Question is required".toList), []) :=
  ⟨rfl, rfl⟩

/-- C9: when the similarity search returns zero results, the query pipeline
does not fail: it assembles the system prompt over the empty context, calls
the completion client with it, and answers 200 with the completion output
and an empty sources list. -/
theorem query_zero_results_proceeds (q : List Char) (ans : Option (List Char))
    (hq : q ≠ []) :
    queryHandler (some q) ⟨Except.ok [], Except.ok ans⟩ =
      (.success ans [],
       [.search hardcodedNamespace q 5, .complete (systemPrompt (contextOf [])) q]) := by
  have ht : questionTruthy (some q) = true := by
    simp [questionTruthy, hq]
  simp [queryHandler, ht]

theorem query_zero_results_proceeds_witness :
    "hi".toList ≠ ([] : List Char) ∧
      queryHandler (some ("hi".toList)) ⟨Except.ok [], Except.ok (some ("fine".toList))⟩ =
        (.success (some ("fine".toList)) [],
         [.search hardcodedNamespace ("hi".toList) 5,
          .complete (systemPrompt (contextOf [])) ("hi".toList)]) :=
  ⟨by decide, query_zero_results_proceeds ("hi".toList) (some ("fine".toList)) (by decide)⟩

/-- C4 (refuting the claim — the code hardcodes the namespace): an
all-success upload whose `uuidv4()` returned "abc" stores "abc" in the
session and returns it to the caller, yet the subsequent query searches the
namespace hardcoded at server line 146, which differs from "abc" — the
similarity search does NOT receive the namespace minted at ingestion (the
session read is commented out in the source). -/
theorem query_ignores_minted_namespace :
    (uploadHandler (some ⟨"upload/1-a.pdf".toList, "a.pdf".toList⟩) ("abc".toList)
        ⟨Except.ok [⟨"page one".toList⟩], Except.ok [⟨"page one".toList, none⟩],
         Except.ok (), fun _ => Except.ok (), Except.ok (), Except.ok ()⟩).response
        = .success ("abc".toList) 1 1 ∧
      (uploadHandler (some ⟨"upload/1-a.pdf".toList, "a.pdf".toList⟩) ("abc".toList)
        ⟨Except.ok [⟨"page one".toList⟩], Except.ok [⟨"page one".toList, none⟩],
         Except.ok (), fun _ => Except.ok (), Except.ok (), Except.ok ()⟩).sessionNamespace
        = some ("abc".toList) ∧
      (queryHandler (some ("q".toList)) ⟨Except.ok [], Except.ok none⟩).2
        = [.search hardcodedNamespace ("q".toList) 5,
           .complete (systemPrompt (contextOf [])) ("q".toList)] ∧
      hardcodedNamespace ≠ "abc".toList :=
  ⟨rfl, rfl, rfl, by decide⟩

/-- C7 counterexample: the PDF load fails with "parse failed" and the
catch-block `unlinkSync` itself fails with "unlink failed"; the unlink error
escapes the handler unhandled — the deletion failure IS surfaced and the 500
carrying the original "parse failed" is never sent (the original error is
masked). -/
theorem upload_unlink_failure_masks_error :
    uploadHandler (some ⟨"upload/2-b.pdf".toList, "b.pdf".toList⟩) ("u1".toList)
        ⟨Except.error ⟨"parse failed".toList⟩, Except.ok [], Except.ok (),
         fun _ => Except.ok (), Except.ok (), Except.error ⟨"unlink failed".toList⟩⟩
      = ⟨.unhandled ⟨"unlink failed".toList⟩,
         [.loadPdf ("upload/2-b.pdf".toList), .unlink ("upload/2-b.pdf".toList)], none⟩ ∧
      (uploadHandler (some ⟨"upload/2-b.pdf".toList, "b.pdf".toList⟩) ("u1".toList)
        ⟨Except.error ⟨"parse failed".toList⟩, Except.ok [], Except.ok (),
         fun _ => Except.ok (), Except.ok (), Except.error ⟨"unlink failed".toList⟩⟩).response
        ≠ .failure ("Failed to process PDF".toList) ("parse failed".toList) :=
  ⟨rfl, by decide⟩

/-- The error with which the try block of the upload handler aborts, if any:
the first rejection among `loader.load()`, `splitDocuments`,
`fromExistingIndex`, the `addDocuments` batches and the try-block
`unlinkSync`, taken in program order (the stage order of `uploadHandler`). -/
def firstStageError (o : UploadOracles) : Option JsErr :=
  match o.load with
  | .error e => some e
  | .ok _ =>
    match o.split with
    | .error e => some e
    | .ok docs =>
      match o.fromIndex with
      | .error e => some e
      | .ok _ =>
        match (runAddBatches o.addBatch docs.length (docs.length + 1) 0).2 with
        | some e => some e
        | none =>
          match o.unlinkTry with
          | .error e => some e
          | .ok _ => none

/-- C7 (amended): for every upload invocation that received a file, deletion
of the temporary file is ATTEMPTED on every exit path (success and every
failure stage); whichever stage fails first — PDF load, split,
`fromExistingIndex`, any `addDocuments` batch, or the try-block unlink —
when the catch-block deletion then succeeds, the 500 response reports that
original error message; but when the deletion itself fails, the unlink error
escapes as an unhandled exception — a deletion failure is surfaced to the
caller and masks the original error. -/
theorem upload_cleanup_on_all_paths (f : UploadedFile) (uuid : List Char) (o : UploadOracles) :
    UploadEffect.unlink f.path ∈ (uploadHandler (some f) uuid o).effects ∧
      (∀ e : JsErr, firstStageError o = some e →
        (o.unlinkCatch = Except.ok () →
          (uploadHandler (some f) uuid o).response
            = .failure ("Failed to process PDF".toList) e.message) ∧
        (∀ e2 : JsErr, o.unlinkCatch = Except.error e2 →
          (uploadHandler (some f) uuid o).response = .unhandled e2)) := by
  obtain ⟨load, split, fromIdx, addB, uT, uC⟩ := o
  constructor
  · rcases load with e | rawDocs
    · rcases uC with e2 | u <;> simp [uploadHandler, catchBlock]
    · rcases split with e | docs
      · rcases uC with e2 | u <;> simp [uploadHandler, catchBlock]
      · rcases fromIdx with e | u1
        · rcases uC with e2 | u <;> simp [uploadHandler, catchBlock]
        · rcases hb : (runAddBatches addB docs.length (docs.length + 1) 0).2 with _ | e
          · rcases uT with e | u2
            · rcases uC with e2 | u <;> simp [uploadHandler, catchBlock, hb]
            · simp [uploadHandler, hb]
          · rcases uC with e2 | u <;> simp [uploadHandler, catchBlock, hb]
  · intro e he
    have hresp : (uploadHandler (some f) uuid ⟨load, split, fromIdx, addB, uT, uC⟩).response
        = (catchBlock f.path e uC).1 := by
      rcases load with e1 | rawDocs
      · have he1 : e1 = e := by simpa [firstStageError] using he
        subst he1
        simp [uploadHandler]
      · rcases split with e1 | docs
        · have he1 : e1 = e := by simpa [firstStageError] using he
          subst he1
          simp [uploadHandler]
        · rcases fromIdx with e1 | u1
          · have he1 : e1 = e := by simpa [firstStageError] using he
            subst he1
            simp [uploadHandler]
          · rcases hb : (runAddBatches addB docs.length (docs.length + 1) 0).2 with _ | e1
            · rcases uT with e1 | u2
              · have he1 : e1 = e := by simpa [firstStageError, hb] using he
                subst he1
                simp [uploadHandler, hb]
              · simp [firstStageError, hb] at he
            · have he1 : e1 = e := by simpa [firstStageError, hb] using he
              subst he1
              simp [uploadHandler, hb]
    constructor
    · intro hok
      subst hok
      rw [hresp]
      simp [catchBlock]
    · intro e2 he2
      subst he2
      rw [hresp]
      simp [catchBlock]

theorem upload_cleanup_on_all_paths_witness :
    UploadEffect.unlink ("upload/3-c.pdf".toList)
        ∈ (uploadHandler (some ⟨"upload/3-c.pdf".toList, "c.pdf".toList⟩) ("u2".toList)
            ⟨Except.ok [⟨"page one".toList⟩], Except.ok [⟨"page one".toList, none⟩],
             Except.ok (), fun _ => Except.error ⟨"upsert failed".toList⟩,
             Except.ok (), Except.ok ()⟩).effects ∧
      (uploadHandler (some ⟨"upload/3-c.pdf".toList, "c.pdf".toList⟩) ("u2".toList)
            ⟨Except.ok [⟨"page one".toList⟩], Except.ok [⟨"page one".toList, none⟩],
             Except.ok (), fun _ => Except.error ⟨"upsert failed".toList⟩,
             Except.ok (), Except.ok ()⟩).response
        = .failure ("Failed to process PDF".toList) ("upsert failed".toList) := by
  have h := upload_cleanup_on_all_paths ⟨"upload/3-c.pdf".toList, "c.pdf".toList⟩
    ("u2".toList)
    ⟨Except.ok [⟨"page one".toList⟩], Except.ok [⟨"page one".toList, none⟩],
     Except.ok (), fun _ => Except.error ⟨"upsert failed".toList⟩,
     Except.ok (), Except.ok ()⟩
  exact ⟨h.1, (h.2 ⟨"upsert failed".toList⟩ rfl).1 rfl⟩
